import Mathlib

/-!
Verification of the mora repository's core subsystems:
the Redis-backed distributed lock (package cache) and the JWT token
authority (package auth), shallowly embedded in Lean 4.

Time is modelled as `Int` nanoseconds (Go `time.Duration` / `time.Time`
epoch nanoseconds).  The external key/value store (Redis) is modelled per
its collaborator contract: a map from keys to a value plus an optional
absolute expiry instant; a record is live at instant `now` when it has no
expiry or `now` is strictly before the expiry.  Each store operation used
by the lock code (`SET key value NX EX ttl`, the unlock Lua script, the
extend Lua script) is a single atomic function on that state, matching
Redis's single-threaded execution of commands and scripts.
-/

namespace Mora

/-- Go `error` values as they appear in the lock code: the two sentinel
errors of the cache package, a context deadline error, an arbitrary
store-level (infrastructure) error, and `fmt.Errorf("msg: %w", inner)`
wrapping. -/
inductive GoErr where
  | lockNotAcquired
  | lockNotOwned
  | ctxDeadlineExceeded
  | storeErr (msg : String)
  | wrap (msg : String) (inner : GoErr)
deriving DecidableEq, Repr

/-- Go `errors.Is`: walks the `%w` wrap chain comparing against a target
sentinel. -/
def GoErr.is : GoErr → GoErr → Bool
  | .wrap m inner, t => (GoErr.wrap m inner == t) || inner.is t
  | e, t => e == t

/-- The Redis store: each key maps to `(value, optional absolute expiry
in ns)`.  `none` expiry means the key never expires (go-redis passes
`expiration == 0` as a plain `SET`). -/
structure RedisState where
  recs : String → Option (String × Option Int)

/-- What `GET key` observes at instant `now`: a record is visible while it
has no expiry or `now` is strictly before its expiry (Redis removes a key
once its expiry instant is reached). -/
def RedisState.getLive (s : RedisState) (now : Int) (k : String) : Option String :=
  match s.recs k with
  | none => none
  | some (v, none) => some v
  | some (v, some exp) => if now < exp then some v else none

/-- The store command `SET key value NX` with expiry `ttl` ns: atomically writes only if the
key has no live record; returns whether it wrote.  A `ttl ≤ 0` becomes a
plain `SET` with no expiry (go-redis treats `expiration == 0` that way;
negative ttls are outside the code's use). -/
def RedisState.setNX (s : RedisState) (now : Int) (k v : String) (ttl : Int) :
    Bool × RedisState :=
  match s.getLive now k with
  | some _ => (false, s)
  | none =>
      (true, ⟨fun k' => if k' = k then
                some (v, if 0 < ttl then some (now + ttl) else none)
              else s.recs k'⟩)

/-- The unlock Lua script: `if get(k) == expected then del(k) return 1 else
return 0`, executed atomically. -/
def RedisState.compareAndDelete (s : RedisState) (now : Int) (k expected : String) :
    Int × RedisState :=
  if s.getLive now k = some expected then
    (1, ⟨fun k' => if k' = k then none else s.recs k'⟩)
  else
    (0, s)

/-- The extend Lua script: `if get(k) == expected then expire(k, secs)
return 1 else return 0`, executed atomically.  `EXPIRE k secs` makes the
key expire `secs` seconds from now (with `secs ≤ 0` the key is gone at
once, which the expiry instant `now + secs·10⁹ ≤ now` captures). -/
def RedisState.compareAndExpire (s : RedisState) (now : Int) (k expected : String)
    (secs : Int) : Int × RedisState :=
  if s.getLive now k = some expected then
    (1, ⟨fun k' => if k' = k then some (expected, some (now + secs * 1000000000))
                   else s.recs k'⟩)
  else
    (0, s)

/-- The `DistributedLock` struct from the source, minus the client back-pointer
(the store state is passed explicitly instead). -/
structure DistributedLock where
  key : String
  value : String
  ttl : Int
deriving DecidableEq, Repr

/-- Go `Client.TryLock`: one atomic SetNX attempt.  `tok` is the value
`generateLockValue()` produced for this call; `fault` injects the store
error branch (`err != nil` from `SetNX(...).Result()`). -/
def Client.TryLock (s : RedisState) (now : Int) (key tok : String) (ttl : Int)
    (fault : Option String) : Except GoErr DistributedLock × RedisState :=
  match fault with
  | some e => (.error (.wrap "failed to acquire lock" (.storeErr e)), s)
  | none =>
      let res := s.setNX now key tok ttl
      if res.1 then (.ok ⟨key, tok, ttl⟩, res.2)
      else (.error .lockNotAcquired, s)

/-- Outcome of one run of `Client.Lock`'s acquisition loop: the returned
value, the number of `TryLock` calls made, and the number of completed
`retryDelay` waits. -/
structure LoopOut where
  result : Except GoErr DistributedLock
  attempts : Nat
  waits : Nat
deriving Repr

/-- The body of `Client.Lock`'s `for` loop.  `attempt r` is what the
`TryLock` call of iteration `r` returns (it abstracts the store state and
the other processes interleaving between attempts; each attempt itself is
a single atomic store command).  `now` is the current instant, `deadline`
the context deadline (`start + lockTimeout`), `hasLastErr` tracks
`lastErr != nil`, `retries` the loop counter, and `left` is
`maxRetries - retries`, the retries still allowed — the source's
`retries+1 > maxRetries` test is exactly `left = 0` (the loop keeps
`retries ≤ maxRetries`).  The `select` at the top of the loop sees
`lockCtx.Done()` ready exactly when `deadline ≤ now`; the `select` in the
wait sees `Done` fire during the wait when `deadline ≤ now + retryDelay`
(at exact equality Go picks either branch nondeterministically, but the
other resolution re-enters the loop at `now = deadline` and returns the
top timeout error, the same acquisition-timeout classification). -/
def Client.lockLoop (attempt : Nat → Except GoErr DistributedLock)
    (retryDelay : Int) :
    Nat → Int → Int → Nat → Bool → LoopOut
  | left, now, deadline, retries, hasLastErr =>
    if deadline ≤ now then
      { result := .error (.wrap "lock acquisition timeout"
          (if hasLastErr then .lockNotAcquired else .ctxDeadlineExceeded)),
        attempts := 0, waits := 0 }
    else
      match attempt retries with
      | .ok lock => { result := .ok lock, attempts := 1, waits := 0 }
      | .error err =>
        if err.is .lockNotAcquired then
          match left with
          | 0 =>
            { result := .error (.wrap "max retries exceeded" .lockNotAcquired),
              attempts := 1, waits := 0 }
          | left' + 1 =>
            if deadline ≤ now + retryDelay then
              { result := .error (.wrap "lock acquisition timeout during retry"
                  .ctxDeadlineExceeded),
                attempts := 1, waits := 0 }
            else
              let rest := Client.lockLoop attempt retryDelay left'
                (now + retryDelay) deadline (retries + 1) true
              { result := rest.result, attempts := rest.attempts + 1,
                waits := rest.waits + 1 }
        else
          { result := .error err, attempts := 1, waits := 0 }

/-- Go `Client.Lock`: runs the retry loop from `retries = 0`, `lastErr = nil`,
`left = maxRetries`, with context deadline `now + lockTimeout`. -/
def Client.Lock (attempt : Nat → Except GoErr DistributedLock) (maxRetries : Nat)
    (retryDelay now lockTimeout : Int) : LoopOut :=
  Client.lockLoop attempt retryDelay maxRetries now (now + lockTimeout) 0 false

/-- Go `DistributedLock.Unlock`: runs the compare-and-delete script; a script
round-trip failure (`fault`) is wrapped; script result 0 means
`ErrLockNotOwned`. -/
def DistributedLock.Unlock (s : RedisState) (now : Int) (lock : DistributedLock)
    (fault : Option String) : Except GoErr Unit × RedisState :=
  match fault with
  | some e => (.error (.wrap "failed to release lock" (.storeErr e)), s)
  | none =>
      let res := s.compareAndDelete now lock.key lock.value
      if res.1 = 0 then (.error .lockNotOwned, s)
      else (.ok (), res.2)

/-- Go `int64(ttl.Seconds())`: the duration in ns divided by 10⁹, the float
result truncated toward zero (`Int.tdiv` is Go's conversion semantics). -/
def ttlSeconds (d : Int) : Int := Int.tdiv d 1000000000

/-- Go `DistributedLock.Extend`: runs the compare-and-expire script with
`int64(ttl.Seconds())` as the new expiry argument; on success the handle's
`ttl` field is set to the full (untruncated) `ttl`.  Returns the result,
the (possibly updated) handle and the store. -/
def DistributedLock.Extend (s : RedisState) (now : Int) (lock : DistributedLock)
    (ttl : Int) (fault : Option String) :
    Except GoErr Unit × DistributedLock × RedisState :=
  match fault with
  | some e => (.error (.wrap "failed to extend lock" (.storeErr e)), lock, s)
  | none =>
      let res := s.compareAndExpire now lock.key lock.value (ttlSeconds ttl)
      if res.1 = 0 then (.error .lockNotOwned, lock, s)
      else (.ok (), { lock with ttl := ttl }, res.2)

/-- Go `Client.WithLock`: acquire via `Lock` (its outcome is `lockRes`), run
the critical section `fn` (its outcome is `fnRes`: `none` = nil error),
and in a deferred block always attempt `Unlock`, discarding its error
(only logged).  Returns the value `WithLock` returns, the store after the
deferred unlock, and whether an unlock was attempted. -/
def Client.WithLock (lockRes : Except GoErr DistributedLock) (fnRes : Option GoErr)
    (s : RedisState) (now : Int) : Option GoErr × RedisState × Bool :=
  match lockRes with
  | .error err => (some err, s, false)
  | .ok lock =>
      let unlocked := DistributedLock.Unlock s now lock none
      (fnRes, unlocked.2, true)

/-- Sequential execution of N `TryLock` calls on the same key at the same
instant (atomicity of SetNX means any overlapping execution is such an
interleaving); `reqs` lists each call's generated token and requested ttl.
Returns the number of calls that succeeded and the final store. -/
def runTryLocks (s : RedisState) (now : Int) (k : String) :
    List (String × Int) → Nat × RedisState
  | [] => (0, s)
  | (tok, ttl) :: rest =>
      let fst := Client.TryLock s now k tok ttl none
      let more := runTryLocks fst.2 now k rest
      ((if fst.1.isOk then 1 else 0) + more.1, more.2)

/-! ## Token authority (package auth)

Tokens are modelled symbolically.  A structurally valid JWT artifact
carries a header algorithm, a claims payload, and a signature; the HMAC
is modelled as the uninterpreted triple (algorithm, payload, key), so a
signature verifies under `secret` exactly when it was produced over the
same header and payload with the same key — any tampering changes the
triple.  `golang-jwt/v5`'s `ParseWithClaims` order is kept: structural
parse, keyfunc (rejecting non-HMAC methods), signature verification,
then registered-claims validation (`exp` expired when it is present and
not after `now`). -/

/-- JWT header algorithms that can appear; the keyfunc accepts exactly the
`SigningMethodHMAC` family. -/
inductive Alg where
  | HS256
  | HS384
  | HS512
  | RS256
  | noneAlg
deriving DecidableEq, Repr

/-- Whether the method is `*jwt.SigningMethodHMAC`. -/
def Alg.isHMAC : Alg → Bool
  | .HS256 | .HS384 | .HS512 => true
  | _ => false

/-- The `auth.Claims` struct: `UserID`, `Username`, plus the registered
claims the code sets (`Subject`, `IssuedAt`, `ExpiresAt`; a `nil`
`*NumericDate` is `none`).  Instants are epoch ns. -/
structure Claims where
  UserID : String
  Username : String
  Subject : String
  IssuedAt : Option Int
  ExpiresAt : Option Int
deriving DecidableEq, Repr

/-- Go `auth.NewClaims`: `now = time.Now()`, `ExpiresAt = now + ttl`. -/
def NewClaims (userID username : String) (ttl now : Int) : Claims :=
  { UserID := userID, Username := username, Subject := userID,
    IssuedAt := some now, ExpiresAt := some (now + ttl) }

/-- Go `Claims.IsExpired`: false when `ExpiresAt` is nil, else
`ExpiresAt.Time.Before(now)` (strict). -/
def Claims.IsExpired (c : Claims) (now : Int) : Bool :=
  match c.ExpiresAt with
  | none => false
  | some e => e < now

/-- The jwt/v5 validator's expiry check on parse: `exp` fails validation
when it is present and `now` is not before it (`exp ≤ now`); a missing
`exp` is not required and passes. -/
def libExpired (c : Claims) (now : Int) : Bool :=
  match c.ExpiresAt with
  | none => false
  | some e => e ≤ now

/-- A structurally valid signed artifact: header algorithm, payload, and
the signature bytes, symbolically the (alg, payload, key) the signer
used. -/
structure SignedToken where
  alg : Alg
  payload : Claims
  sig : Alg × Claims × String
deriving DecidableEq, Repr

/-- A token string as `ParseWithClaims` classifies it: empty, structurally
unparseable (`jwt.ErrTokenMalformed`), or a structurally valid signed
artifact. -/
inductive TokenString where
  | empty
  | malformed (raw : String)
  | signed (t : SignedToken)
deriving DecidableEq, Repr

/-- Token authority error kinds (`auth.ErrInvalidToken` and friends). -/
inductive TokenErr where
  | invalidToken
  | expiredToken
  | malformedToken
deriving DecidableEq, Repr

/-- Go `auth.GenerateToken`: builds `NewClaims` and signs it with HS256 over
`secret` (the HMAC signing operation itself cannot fail in this model;
its error branch is dead for HMAC keys). -/
def GenerateToken (userID username secret : String) (ttl now : Int) : TokenString :=
  let claims := NewClaims userID username ttl now
  .signed { alg := .HS256, payload := claims, sig := (.HS256, claims, secret) }

/-- Go `auth.ValidateToken` at verification instant `now`:
empty input → `ErrInvalidToken` with no parsing; structural failure →
`ErrTokenMalformed` → `ErrMalformedToken`; non-HMAC method → keyfunc
error → `ErrInvalidToken`; signature mismatch → `ErrTokenSignatureInvalid`
→ `ErrInvalidToken`; library claims validation finds `exp ≤ now` →
`ErrTokenExpired` → `ErrExpiredToken`; then the explicit
`claims.IsExpired()` re-check; otherwise the claims. -/
def ValidateToken (ts : TokenString) (secret : String) (now : Int) :
    Except TokenErr Claims :=
  match ts with
  | .empty => .error .invalidToken
  | .malformed _ => .error .malformedToken
  | .signed t =>
      if !t.alg.isHMAC then .error .invalidToken
      else if t.sig ≠ (t.alg, t.payload, secret) then .error .invalidToken
      else if libExpired t.payload now then .error .expiredToken
      else if t.payload.IsExpired now then .error .expiredToken
      else .ok t.payload

/-- An empty store, for concrete instantiations. -/
def storeEmpty : RedisState := ⟨fun _ => none⟩

/-- A store whose key `"r"` is held with value `"t1"` and no expiry, for
concrete instantiations. -/
def storeR : RedisState :=
  ⟨fun k => if k = "r" then some ("t1", none) else none⟩

/-! ## Helper lemmas -/

theorem TryLock_of_live {s : RedisState} {now : Int} {k v : String} (tok : String)
    (ttl : Int) (h : s.getLive now k = some v) :
    Client.TryLock s now k tok ttl none = (.error .lockNotAcquired, s) := by
  simp [Client.TryLock, RedisState.setNX, h]

theorem setNX_of_free {s : RedisState} {now : Int} {k : String} (v : String)
    (ttl : Int) (h : s.getLive now k = none) :
    (s.setNX now k v ttl).1 = true ∧
      ((s.setNX now k v ttl).2).getLive now k = some v := by
  simp only [RedisState.setNX, h]
  refine ⟨trivial, ?_⟩
  simp only [RedisState.getLive, if_pos rfl]
  by_cases hp : 0 < ttl
  · simp only [if_pos hp]
    have : now < now + ttl := by omega
    simp [this]
  · simp [if_neg hp]

theorem TryLock_of_free {s : RedisState} {now : Int} {k : String} (tok : String)
    (ttl : Int) (h : s.getLive now k = none) :
    (Client.TryLock s now k tok ttl none).1 = .ok ⟨k, tok, ttl⟩ ∧
      ((Client.TryLock s now k tok ttl none).2).getLive now k = some tok := by
  obtain ⟨h1, h2⟩ := setNX_of_free tok ttl h
  constructor
  · simp [Client.TryLock, h1]
  · simp only [Client.TryLock, h1, if_pos]
    exact h2

theorem runTryLocks_of_live {now : Int} {k v : String}
    (reqs : List (String × Int)) :
    ∀ {s : RedisState}, s.getLive now k = some v →
      runTryLocks s now k reqs = (0, s) := by
  induction reqs with
  | nil => intro s _; rfl
  | cons hd tl ih =>
      intro s h
      simp only [runTryLocks, TryLock_of_live hd.1 hd.2 h, ih h]
      rfl

theorem runTryLocks_le_one (s : RedisState) (now : Int) (k : String)
    (reqs : List (String × Int)) : (runTryLocks s now k reqs).1 ≤ 1 := by
  cases hl : s.getLive now k with
  | some v => simp [runTryLocks_of_live reqs hl]
  | none =>
      cases reqs with
      | nil => simp [runTryLocks]
      | cons hd tl =>
          obtain ⟨h1, h2⟩ := TryLock_of_free hd.1 hd.2 hl
          simp only [runTryLocks, h1]
          have h0 := runTryLocks_of_live tl h2 (v := hd.1)
          simp [h1, h0, Except.isOk, Except.toBool]

theorem Unlock_owned {s : RedisState} {now : Int} {lock : DistributedLock}
    (h : s.getLive now lock.key = some lock.value) :
    (DistributedLock.Unlock s now lock none).1 = .ok () ∧
      ((DistributedLock.Unlock s now lock none).2).recs lock.key = none := by
  simp [DistributedLock.Unlock, RedisState.compareAndDelete, h]

theorem Unlock_not_owned {s : RedisState} {now : Int} {lock : DistributedLock}
    (h : ¬ s.getLive now lock.key = some lock.value) :
    DistributedLock.Unlock s now lock none = (.error .lockNotOwned, s) := by
  simp [DistributedLock.Unlock, RedisState.compareAndDelete, h]

theorem Extend_owned {s : RedisState} {now : Int} {lock : DistributedLock}
    (d : Int) (h : s.getLive now lock.key = some lock.value) :
    (DistributedLock.Extend s now lock d none).1 = .ok () ∧
      (DistributedLock.Extend s now lock d none).2.1 = { lock with ttl := d } ∧
      ((DistributedLock.Extend s now lock d none).2.2).recs lock.key =
        some (lock.value, some (now + ttlSeconds d * 1000000000)) := by
  simp [DistributedLock.Extend, RedisState.compareAndExpire, h]

theorem Extend_not_owned {s : RedisState} {now : Int} {lock : DistributedLock}
    (d : Int) (h : ¬ s.getLive now lock.key = some lock.value) :
    DistributedLock.Extend s now lock d none = (.error .lockNotOwned, lock, s) := by
  simp [DistributedLock.Extend, RedisState.compareAndExpire, h]

theorem GoErr_is_self : GoErr.is .lockNotAcquired .lockNotAcquired = true := by
  decide

theorem GoErr_is_wrap_store (m e : String) :
    GoErr.is (.wrap m (.storeErr e)) .lockNotAcquired = false := by
  simp [GoErr.is, beq_iff_eq]

theorem lockLoop_deadline (attempt : Nat → Except GoErr DistributedLock)
    (rd : Int) (left : Nat) (now dl : Int) (r : Nat) (h : Bool) (hdl : dl ≤ now) :
    Client.lockLoop attempt rd left now dl r h =
      { result := .error (.wrap "lock acquisition timeout"
          (if h then .lockNotAcquired else .ctxDeadlineExceeded)),
        attempts := 0, waits := 0 } := by
  cases left <;> simp [Client.lockLoop, hdl]

theorem lockLoop_ok (attempt : Nat → Except GoErr DistributedLock)
    (rd : Int) (left : Nat) (now dl : Int) (r : Nat) (h : Bool) (lock : DistributedLock)
    (hdl : now < dl) (ha : attempt r = .ok lock) :
    Client.lockLoop attempt rd left now dl r h =
      { result := .ok lock, attempts := 1, waits := 0 } := by
  cases left <;> simp [Client.lockLoop, not_le.mpr hdl, ha]

theorem lockLoop_infra (attempt : Nat → Except GoErr DistributedLock)
    (rd : Int) (left : Nat) (now dl : Int) (r : Nat) (h : Bool) (e : GoErr)
    (hdl : now < dl) (ha : attempt r = .error e)
    (hnc : e.is .lockNotAcquired = false) :
    Client.lockLoop attempt rd left now dl r h =
      { result := .error e, attempts := 1, waits := 0 } := by
  cases left <;> simp [Client.lockLoop, not_le.mpr hdl, ha, hnc]

theorem lockLoop_retries_exhausted (attempt : Nat → Except GoErr DistributedLock)
    (rd : Int) (now dl : Int) (r : Nat) (h : Bool)
    (hdl : now < dl) (ha : attempt r = .error .lockNotAcquired) :
    Client.lockLoop attempt rd 0 now dl r h =
      { result := .error (.wrap "max retries exceeded" .lockNotAcquired),
        attempts := 1, waits := 0 } := by
  simp [Client.lockLoop, not_le.mpr hdl, ha, GoErr.is]

theorem lockLoop_timeout_in_wait (attempt : Nat → Except GoErr DistributedLock)
    (rd : Int) (left' : Nat) (now dl : Int) (r : Nat) (h : Bool)
    (hdl : now < dl) (ha : attempt r = .error .lockNotAcquired)
    (hw : dl ≤ now + rd) :
    Client.lockLoop attempt rd (left' + 1) now dl r h =
      { result := .error (.wrap "lock acquisition timeout during retry"
          .ctxDeadlineExceeded),
        attempts := 1, waits := 0 } := by
  simp [Client.lockLoop, not_le.mpr hdl, ha, GoErr.is, hw]

theorem lockLoop_attempts_le (attempt : Nat → Except GoErr DistributedLock)
    (rd dl : Int) (left : Nat) :
    ∀ (now : Int) (r : Nat) (h : Bool),
      (Client.lockLoop attempt rd left now dl r h).attempts ≤ left + 1 := by
  induction left with
  | zero =>
      intro now r h
      simp only [Client.lockLoop]
      split
      · simp
      · split
        · simp
        · split
          · simp
          · simp
  | succ left' ih =>
      intro now r h
      simp only [Client.lockLoop]
      split
      · simp
      · split
        · simp
        · split
          · split
            · simp
            · have := ih (now + rd) (r + 1) true
              simp only [LoopOut.attempts]
              omega
          · simp

theorem lockLoop_waits_le (attempt : Nat → Except GoErr DistributedLock)
    (rd dl : Int) (left : Nat) :
    ∀ (now : Int) (r : Nat) (h : Bool),
      (Client.lockLoop attempt rd left now dl r h).waits ≤
          (Client.lockLoop attempt rd left now dl r h).attempts ∧
        (Client.lockLoop attempt rd left now dl r h).attempts ≤
          (Client.lockLoop attempt rd left now dl r h).waits + 1 := by
  induction left with
  | zero =>
      intro now r h
      simp only [Client.lockLoop]
      split
      · simp
      · split
        · simp
        · split
          · simp
          · simp
  | succ left' ih =>
      intro now r h
      simp only [Client.lockLoop]
      split
      · simp
      · split
        · simp
        · split
          · split
            · simp
            · have := ih (now + rd) (r + 1) true
              simp only [LoopOut.attempts, LoopOut.waits]
              omega
          · simp

/-! ## Claim theorems -/

/-- Claim C3: for every subjectID, displayName, secret and ttl > 0, verifying a
token immediately after issuing it with the same secret succeeds and
returns Claims whose subjectID (UserID) and displayName (Username) equal
the issued values, with IsExpired() false. -/
theorem C3_issue_verify_roundtrip (userID username secret : String) (ttl now : Int)
    (h : 0 < ttl) :
    ValidateToken (GenerateToken userID username secret ttl now) secret now =
        .ok (NewClaims userID username ttl now) ∧
      (NewClaims userID username ttl now).UserID = userID ∧
      (NewClaims userID username ttl now).Username = username ∧
      (NewClaims userID username ttl now).IsExpired now = false := by
  have h1 : ¬ (now + ttl ≤ now) := by omega
  have h2 : ¬ (now + ttl < now) := by omega
  refine ⟨?_, rfl, rfl, ?_⟩
  · simp [ValidateToken, GenerateToken, NewClaims, Alg.isHMAC, libExpired,
      Claims.IsExpired, h1, h2]
  · simp [NewClaims, Claims.IsExpired, h2]

/-- Witness for C3 at a concrete input. -/
theorem C3_issue_verify_roundtrip_witness :
    (0 : Int) < 5 ∧
      (ValidateToken (GenerateToken "alice" "Alice" "k" 5 100) "k" 100 =
          .ok (NewClaims "alice" "Alice" 5 100) ∧
        (NewClaims "alice" "Alice" 5 100).UserID = "alice" ∧
        (NewClaims "alice" "Alice" 5 100).Username = "Alice" ∧
        (NewClaims "alice" "Alice" 5 100).IsExpired 100 = false) :=
  ⟨by decide, C3_issue_verify_roundtrip "alice" "Alice" "k" 5 100 (by decide)⟩

/-- Claim C6: for a structurally valid artifact whose method is in the HMAC
family and whose signature verifies under the secret, Verify returns
ExpiredToken exactly when the payload's expiresAt is present and at or
before the verification instant; a missing (zero-value) expiresAt is
never-expiring and Verify returns the Claims. -/
theorem C6_expiry_boundary (t : SignedToken) (secret : String) (now : Int)
    (halg : t.alg.isHMAC = true) (hsig : t.sig = (t.alg, t.payload, secret)) :
    (ValidateToken (.signed t) secret now = .error .expiredToken ↔
        ∃ e, t.payload.ExpiresAt = some e ∧ e ≤ now) ∧
      (t.payload.ExpiresAt = none →
        ValidateToken (.signed t) secret now = .ok t.payload) := by
  cases hE : t.payload.ExpiresAt with
  | none =>
      constructor
      · simp [ValidateToken, halg, hsig, libExpired, Claims.IsExpired, hE]
      · intro _
        simp [ValidateToken, halg, hsig, libExpired, Claims.IsExpired, hE]
  | some e =>
      constructor
      · by_cases he : e ≤ now
        · simp only [ValidateToken, halg, hsig, libExpired, hE]
          simp [he]
        · have hlt : ¬ (e < now) := by omega
          simp [ValidateToken, halg, hsig, libExpired, Claims.IsExpired, hE, he, hlt]
      · intro hnone
        simp at hnone

/-- Witness for C6 at a concrete input: an expired artifact
(expiresAt = 50 ≤ now = 100) yields ExpiredToken. -/
theorem C6_expiry_boundary_witness :
    (ValidateToken
        (.signed { alg := .HS256,
                   payload := { UserID := "u", Username := "n", Subject := "u",
                                IssuedAt := some 0, ExpiresAt := some 50 },
                   sig := (.HS256,
                     { UserID := "u", Username := "n", Subject := "u",
                       IssuedAt := some 0, ExpiresAt := some 50 }, "k") })
        "k" 100 = .error .expiredToken) :=
  (C6_expiry_boundary
      { alg := .HS256,
        payload := { UserID := "u", Username := "n", Subject := "u",
                     IssuedAt := some 0, ExpiresAt := some 50 },
        sig := (.HS256,
          { UserID := "u", Username := "n", Subject := "u",
            IssuedAt := some 0, ExpiresAt := some 50 }, "k") }
      "k" 100 (by decide) (by decide)).1.mpr ⟨50, rfl, by decide⟩

/-- Claim C7: a structurally valid artifact whose signature does not verify
under the given secret, or whose header algorithm is outside the HMAC
family, is rejected with InvalidToken; Claims are only ever returned for
an HMAC artifact whose signature verifies under the secret (so Verify
with a wrong secret never returns Claims); the empty token string is also
InvalidToken. -/
theorem C7_wrong_secret_invalid (secret : String) (now : Int) :
    (∀ t : SignedToken,
        t.sig ≠ (t.alg, t.payload, secret) ∨ t.alg.isHMAC = false →
        ValidateToken (.signed t) secret now = .error .invalidToken) ∧
      (∀ (ts : TokenString) (c : Claims), ValidateToken ts secret now = .ok c →
        ∃ t : SignedToken, ts = .signed t ∧ t.alg.isHMAC = true ∧
          t.sig = (t.alg, t.payload, secret) ∧ c = t.payload) ∧
      ValidateToken .empty secret now = .error .invalidToken := by
  refine ⟨?_, ?_, rfl⟩
  · intro t h
    rcases h with h | h
    · by_cases halg : t.alg.isHMAC
      · simp [ValidateToken, halg, h]
      · simp [ValidateToken, halg]
    · simp [ValidateToken, h]
  · intro ts c h
    cases ts with
    | empty => cases h
    | malformed raw => cases h
    | signed t =>
        refine ⟨t, rfl, ?_⟩
        by_cases halg : t.alg.isHMAC
        · by_cases hsig : t.sig = (t.alg, t.payload, secret)
          · refine ⟨halg, hsig, ?_⟩
            simp only [ValidateToken, halg, hsig] at h
            by_cases h3 : libExpired t.payload now
            · simp [h3] at h
            · by_cases h4 : t.payload.IsExpired now
              · simp [h3, h4] at h
              · simp [h3, h4] at h
                exact h.symm
          · simp [ValidateToken, halg, hsig] at h
        · simp [ValidateToken, halg] at h

/-- Witness for C7 at a concrete input: a token signed with "right" fails
verification under "wrong" with InvalidToken. -/
theorem C7_wrong_secret_invalid_witness :
    ValidateToken
        (.signed { alg := .HS256,
                   payload := NewClaims "u" "n" 5 0,
                   sig := (.HS256, NewClaims "u" "n" 5 0, "right") })
        "wrong" 0 = .error .invalidToken :=
  (C7_wrong_secret_invalid "wrong" 0).1
    { alg := .HS256, payload := NewClaims "u" "n" 5 0,
      sig := (.HS256, NewClaims "u" "n" 5 0, "right") }
    (.inl (by decide))

/-- Claim C1: mutual exclusion per key.  (i) While a key has a live record,
every TryLock on it fails with LockNotAcquired and leaves the store
unchanged.  (ii) Of any number of overlapping TryLock calls on one key
(an interleaving of their atomic SetNX commands at one instant), at most
one succeeds.  (iii) The store holds at most one owner token per key by
construction (`getLive` is an `Option`), and a live owner token is
untouched by any other caller's TryLock, Unlock, or Extend; it is cleared
by the owner's Unlock. -/
theorem C1_mutual_exclusion :
    (∀ (s : RedisState) (now : Int) (k v tok : String) (ttl : Int),
        s.getLive now k = some v →
        Client.TryLock s now k tok ttl none = (.error .lockNotAcquired, s)) ∧
      (∀ (s : RedisState) (now : Int) (k : String) (reqs : List (String × Int)),
        (∀ r ∈ reqs, 0 < r.2) → (runTryLocks s now k reqs).1 ≤ 1) ∧
      (∀ (s : RedisState) (now : Int) (k tok : String),
        s.getLive now k = some tok →
        (∀ (tok' : String) (ttl : Int),
          ((Client.TryLock s now k tok' ttl none).2).getLive now k = some tok) ∧
        (∀ (tok' : String) (oldTtl : Int), tok' ≠ tok →
          ((DistributedLock.Unlock s now ⟨k, tok', oldTtl⟩ none).2).getLive now k =
            some tok) ∧
        (∀ (tok' : String) (oldTtl newTtl : Int), tok' ≠ tok →
          ((DistributedLock.Extend s now ⟨k, tok', oldTtl⟩ newTtl none).2.2).getLive
            now k = some tok) ∧
        (∀ oldTtl : Int,
          ((DistributedLock.Unlock s now ⟨k, tok, oldTtl⟩ none).2).recs k = none)) := by
  refine ⟨fun s now k v tok ttl h => TryLock_of_live tok ttl h,
    fun s now k reqs _ => runTryLocks_le_one s now k reqs,
    fun s now k tok h => ⟨?_, ?_, ?_, ?_⟩⟩
  · intro tok' ttl
    rw [TryLock_of_live tok' ttl h]
    exact h
  · intro tok' oldTtl hne
    have : ¬ s.getLive now k = some tok' := by
      rw [h]; simp; exact fun e => hne e.symm
    rw [Unlock_not_owned this]
    exact h
  · intro tok' oldTtl newTtl hne
    have : ¬ s.getLive now k = some tok' := by
      rw [h]; simp; exact fun e => hne e.symm
    rw [Extend_not_owned newTtl this]
    exact h
  · intro oldTtl
    exact (Unlock_owned h).2

/-- Witness for C1 at concrete inputs: key `"r"` held by `"t1"`; a TryLock
by `"t2"` fails and changes nothing; three overlapping TryLocks on an
empty store yield at most one success; a foreign Unlock leaves the holder
in place. -/
theorem C1_mutual_exclusion_witness :
    Client.TryLock storeR 0 "r" "t2" 30 none = (.error .lockNotAcquired, storeR) ∧
      (runTryLocks storeEmpty 0 "r" [("a", 5), ("b", 5), ("c", 5)]).1 ≤ 1 ∧
      ((DistributedLock.Unlock storeR 0 ⟨"r", "t2", 30⟩ none).2).getLive 0 "r" =
        some "t1" := by
  obtain ⟨h1, h2, h3⟩ := C1_mutual_exclusion
  exact ⟨h1 storeR 0 "r" "t1" "t2" 30 rfl,
    h2 storeEmpty 0 "r" [("a", 5), ("b", 5), ("c", 5)] (by decide),
    (h3 storeR 0 "r" "t1" rfl).2.1 "t2" 30 (by decide)⟩

/-- Claim C2: Unlock deletes the record at handle.key only when its current
value equals handle.ownerToken, atomically; otherwise (differing value or
absent key) it returns LockNotOwned and leaves the store unchanged.  In
particular, after the old lease is gone and a different owner re-acquires
the key, the stale handle's Unlock returns LockNotOwned and the new
owner's record survives. -/
theorem C2_unlock_owner_only :
    (∀ (s : RedisState) (now : Int) (lock : DistributedLock),
        s.getLive now lock.key = some lock.value →
        (DistributedLock.Unlock s now lock none).1 = .ok () ∧
        ((DistributedLock.Unlock s now lock none).2).recs lock.key = none) ∧
      (∀ (s : RedisState) (now : Int) (lock : DistributedLock),
        ¬ s.getLive now lock.key = some lock.value →
        DistributedLock.Unlock s now lock none = (.error .lockNotOwned, s)) ∧
      (∀ (s : RedisState) (now : Int) (k tok1 tok2 : String) (ttl oldTtl : Int),
        tok1 ≠ tok2 → s.getLive now k = none →
        (Client.TryLock s now k tok2 ttl none).1 = .ok ⟨k, tok2, ttl⟩ ∧
        DistributedLock.Unlock (Client.TryLock s now k tok2 ttl none).2 now
            ⟨k, tok1, oldTtl⟩ none =
          (.error .lockNotOwned, (Client.TryLock s now k tok2 ttl none).2) ∧
        ((Client.TryLock s now k tok2 ttl none).2).getLive now k = some tok2) := by
  refine ⟨fun s now lock h => Unlock_owned h,
    fun s now lock h => Unlock_not_owned h, ?_⟩
  intro s now k tok1 tok2 ttl oldTtl hne hfree
  obtain ⟨h1, h2⟩ := TryLock_of_free tok2 ttl hfree
  refine ⟨h1, ?_, h2⟩
  have : ¬ ((Client.TryLock s now k tok2 ttl none).2).getLive now k = some tok1 := by
    rw [h2]; simp; exact fun e => hne e.symm
  exact Unlock_not_owned this

/-- Witness for C2 at concrete inputs: the owner's Unlock removes the
record; the stale owner `"t1"` cannot unlock the key re-acquired by
`"t2"` on an empty (expired) store. -/
theorem C2_unlock_owner_only_witness :
    ((DistributedLock.Unlock storeR 0 ⟨"r", "t1", 30⟩ none).1 = .ok () ∧
        ((DistributedLock.Unlock storeR 0 ⟨"r", "t1", 30⟩ none).2).recs "r" = none) ∧
      ((Client.TryLock storeEmpty 0 "r" "t2" 30 none).1 = .ok ⟨"r", "t2", 30⟩ ∧
        DistributedLock.Unlock (Client.TryLock storeEmpty 0 "r" "t2" 30 none).2 0
            ⟨"r", "t1", 30⟩ none =
          (.error .lockNotOwned, (Client.TryLock storeEmpty 0 "r" "t2" 30 none).2) ∧
        ((Client.TryLock storeEmpty 0 "r" "t2" 30 none).2).getLive 0 "r" =
          some "t2") := by
  obtain ⟨h1, _, h3⟩ := C2_unlock_owner_only
  exact ⟨h1 storeR 0 ⟨"r", "t1", 30⟩ rfl,
    h3 storeEmpty 0 "r" "t1" "t2" 30 30 (by decide) rfl⟩

/-- Claim C4: in every reachable iteration state of Lock's loop, an elapsed
deadline is detected before the attempt (no TryLock call is made); a
deadline elapsing during a retry wait returns the acquisition-timeout
error wrapping the context error — not a LockNotAcquired outcome — with
no further attempt; that error differs from the retries-exhausted error
and does not satisfy errors.Is(·, ErrLockNotAcquired); and Lock is the
loop started at retries = 0 with deadline now + lockTimeout. -/
theorem C4_deadline_before_attempt_and_wait :
    (∀ (attempt : Nat → Except GoErr DistributedLock) (rd : Int) (left : Nat)
        (now dl : Int) (r : Nat) (h : Bool), dl ≤ now →
        Client.lockLoop attempt rd left now dl r h =
          { result := .error (.wrap "lock acquisition timeout"
              (if h then .lockNotAcquired else .ctxDeadlineExceeded)),
            attempts := 0, waits := 0 }) ∧
      (∀ (attempt : Nat → Except GoErr DistributedLock) (rd : Int) (left' : Nat)
        (now dl : Int) (r : Nat) (h : Bool), now < dl →
        attempt r = .error .lockNotAcquired → dl ≤ now + rd →
        Client.lockLoop attempt rd (left' + 1) now dl r h =
          { result := .error (.wrap "lock acquisition timeout during retry"
              .ctxDeadlineExceeded),
            attempts := 1, waits := 0 }) ∧
      ((GoErr.wrap "lock acquisition timeout during retry" .ctxDeadlineExceeded ≠
          GoErr.wrap "max retries exceeded" .lockNotAcquired) ∧
        GoErr.is (.wrap "lock acquisition timeout during retry" .ctxDeadlineExceeded)
          .lockNotAcquired = false) ∧
      (∀ (attempt : Nat → Except GoErr DistributedLock) (mx : Nat)
        (rd now lt : Int),
        Client.Lock attempt mx rd now lt =
          Client.lockLoop attempt rd mx now (now + lt) 0 false) := by
  exact ⟨lockLoop_deadline, lockLoop_timeout_in_wait,
    ⟨by decide, by decide⟩, fun _ _ _ _ _ => rfl⟩

/-- Witness for C4 at concrete inputs: a loop entered past its deadline
makes no attempt; with deadline 50 and retryDelay 100, the first failed
attempt's wait crosses the deadline and yields the acquisition-timeout
error after exactly one attempt. -/
theorem C4_deadline_before_attempt_and_wait_witness :
    Client.lockLoop (fun _ => .error .lockNotAcquired) 100 3 60 50 0 false =
        { result := .error (.wrap "lock acquisition timeout"
            (if false then .lockNotAcquired else .ctxDeadlineExceeded)),
          attempts := 0, waits := 0 } ∧
      Client.lockLoop (fun _ => .error .lockNotAcquired) 100 3 0 50 0 false =
        { result := .error (.wrap "lock acquisition timeout during retry"
            .ctxDeadlineExceeded),
          attempts := 1, waits := 0 } := by
  obtain ⟨h1, h2, _, _⟩ := C4_deadline_before_attempt_and_wait
  exact ⟨h1 (fun _ => .error .lockNotAcquired) 100 3 60 50 0 false (by decide),
    h2 (fun _ => .error .lockNotAcquired) 100 2 0 50 0 false (by decide) rfl
      (by decide)⟩

/-- Claim C5 counterexample: the claim says Lock makes at most
`options.maxRetries` attempts; with maxRetries = 0 and the key held
(every attempt reports contention) within an ample deadline, Lock makes
one TryLock attempt, and 1 ≤ 0 is false. -/
theorem C5_counterexample :
    (Client.Lock (fun _ => .error .lockNotAcquired) 0 100 0 1000000).attempts = 1 ∧
      ¬ ((Client.Lock (fun _ => .error .lockNotAcquired) 0 100 0 1000000).attempts
          ≤ 0) := by
  constructor
  · rfl
  · decide

/-- Claim C5 as amended: Lock makes at most maxRetries + 1 TryLock attempts (the
initial attempt plus up to maxRetries retries) within the lockTimeout
budget, with one retryDelay wait between consecutive failed attempts
(waits ≤ attempts ≤ waits + 1); with maxRetries = 0 and the key already
held, Lock returns the retries-exhausted contention failure after its
single attempt with no wait. -/
theorem C5_bounded_retry (attempt : Nat → Except GoErr DistributedLock)
    (mx : Nat) (rd now lt : Int) :
    (Client.Lock attempt mx rd now lt).attempts ≤ mx + 1 ∧
      ((Client.Lock attempt mx rd now lt).waits ≤
          (Client.Lock attempt mx rd now lt).attempts ∧
        (Client.Lock attempt mx rd now lt).attempts ≤
          (Client.Lock attempt mx rd now lt).waits + 1) ∧
      (0 < lt → attempt 0 = .error .lockNotAcquired → mx = 0 →
        Client.Lock attempt mx rd now lt =
          { result := .error (.wrap "max retries exceeded" .lockNotAcquired),
            attempts := 1, waits := 0 }) := by
  refine ⟨lockLoop_attempts_le attempt rd (now + lt) mx now 0 false,
    lockLoop_waits_le attempt rd (now + lt) mx now 0 false, ?_⟩
  intro hlt ha hmx
  subst hmx
  exact lockLoop_retries_exhausted attempt rd now (now + lt) 0 false (by omega) ha

/-- Witness for C5 (amended) at concrete inputs. -/
theorem C5_bounded_retry_witness :
    (Client.Lock (fun _ => .error .lockNotAcquired) 0 100 0 1000000).attempts
        ≤ 0 + 1 ∧
      Client.Lock (fun _ => .error .lockNotAcquired) 0 100 0 1000000 =
        { result := .error (.wrap "max retries exceeded" .lockNotAcquired),
          attempts := 1, waits := 0 } := by
  obtain ⟨h1, _, h3⟩ :=
    C5_bounded_retry (fun _ => .error .lockNotAcquired) 0 100 0 1000000
  exact ⟨h1, h3 (by decide) rfl rfl⟩

/-- Claim C8: a TryLock failure other than contention aborts the acquisition at
once.  TryLock wraps a store error with context (the store error is kept
in the chain); Lock's loop, seeing an error that is not
ErrLockNotAcquired, returns it as-is with no further attempts and no
retry wait — from any reachable iteration state. -/
theorem C8_infra_error_aborts :
    (∀ (s : RedisState) (now : Int) (k tok : String) (ttl : Int) (e : String),
        (Client.TryLock s now k tok ttl (some e)).1 =
          .error (.wrap "failed to acquire lock" (.storeErr e)) ∧
        GoErr.is (.wrap "failed to acquire lock" (.storeErr e))
          .lockNotAcquired = false) ∧
      (∀ (attempt : Nat → Except GoErr DistributedLock) (rd : Int) (left : Nat)
        (now dl : Int) (r : Nat) (h : Bool) (m e : String), now < dl →
        attempt r = .error (.wrap m (.storeErr e)) →
        Client.lockLoop attempt rd left now dl r h =
          { result := .error (.wrap m (.storeErr e)),
            attempts := 1, waits := 0 }) := by
  refine ⟨fun s now k tok ttl e => ⟨rfl, GoErr_is_wrap_store _ e⟩, ?_⟩
  intro attempt rd left now dl r h m e hdl ha
  exact lockLoop_infra attempt rd left now dl r h _ hdl ha (GoErr_is_wrap_store m e)

/-- Witness for C8 at concrete inputs: an injected store fault on the
first attempt is returned after exactly one attempt with no wait. -/
theorem C8_infra_error_aborts_witness :
    (Client.TryLock storeEmpty 0 "r" "t1" 30 (some "conn refused")).1 =
        .error (.wrap "failed to acquire lock" (.storeErr "conn refused")) ∧
      Client.lockLoop
          (fun _ => .error (.wrap "failed to acquire lock"
            (.storeErr "conn refused"))) 100 5 0 1000 0 false =
        { result := .error (.wrap "failed to acquire lock"
            (.storeErr "conn refused")),
          attempts := 1, waits := 0 } := by
  obtain ⟨h1, h2⟩ := C8_infra_error_aborts
  exact ⟨(h1 storeEmpty 0 "r" "t1" 30 "conn refused").1,
    h2 (fun _ => .error (.wrap "failed to acquire lock" (.storeErr "conn refused")))
      100 5 0 1000 0 false "failed to acquire lock" "conn refused" (by decide) rfl⟩

/-- Claim C9: WithLock runs the critical section only after Lock succeeds and
always attempts Unlock on exit; the value it returns is exactly the
critical section's outcome — an Unlock failure never replaces it — and
when the handle was still owned, the record is gone afterwards so a
subsequent TryLock on the key succeeds.  A Lock failure is returned as-is
with no unlock attempt. -/
theorem C9_withlock_forwards_outcome :
    (∀ (lock : DistributedLock) (fn : Option GoErr) (s : RedisState) (now : Int),
        (Client.WithLock (.ok lock) fn s now).1 = fn ∧
        (Client.WithLock (.ok lock) fn s now).2.2 = true) ∧
      (∀ (lock : DistributedLock) (fn : Option GoErr) (s : RedisState) (now : Int)
        (err : GoErr), (DistributedLock.Unlock s now lock none).1 = .error err →
        (Client.WithLock (.ok lock) fn s now).1 = fn) ∧
      (∀ (e : GoErr) (fn : Option GoErr) (s : RedisState) (now : Int),
        Client.WithLock (.error e) fn s now = (some e, s, false)) ∧
      (∀ (lock : DistributedLock) (fn : Option GoErr) (s : RedisState) (now : Int)
        (tok2 : String) (ttl2 : Int),
        s.getLive now lock.key = some lock.value →
        ((Client.WithLock (.ok lock) fn s now).2.1).recs lock.key = none ∧
        (Client.TryLock (Client.WithLock (.ok lock) fn s now).2.1 now lock.key
          tok2 ttl2 none).1 = .ok ⟨lock.key, tok2, ttl2⟩) := by
  refine ⟨fun lock fn s now => ⟨rfl, rfl⟩,
    fun lock fn s now err _ => rfl,
    fun e fn s now => rfl, ?_⟩
  intro lock fn s now tok2 ttl2 h
  have hdel : ((Client.WithLock (.ok lock) fn s now).2.1).recs lock.key = none := by
    show ((DistributedLock.Unlock s now lock none).2).recs lock.key = none
    exact (Unlock_owned h).2
  have hfree : ((Client.WithLock (.ok lock) fn s now).2.1).getLive now lock.key
      = none := by
    simp [RedisState.getLive, hdel]
  exact ⟨hdel, (TryLock_of_free tok2 ttl2 hfree).1⟩

/-- Witness for C9 at concrete inputs: a failing critical section's error
is returned even though the store was updated by the unlock, and the key
is re-acquirable afterwards. -/
theorem C9_withlock_forwards_outcome_witness :
    (Client.WithLock (.ok ⟨"r", "t1", 30⟩) (some (.storeErr "boom")) storeR 0).1 =
        some (.storeErr "boom") ∧
      ((Client.WithLock (.ok ⟨"r", "t1", 30⟩) (some (.storeErr "boom"))
          storeR 0).2.1).recs "r" = none ∧
      (Client.TryLock
          (Client.WithLock (.ok ⟨"r", "t1", 30⟩) (some (.storeErr "boom"))
            storeR 0).2.1 0 "r" "t2" 30 none).1 = .ok ⟨"r", "t2", 30⟩ := by
  obtain ⟨h1, _, _, h4⟩ := C9_withlock_forwards_outcome
  obtain ⟨hdel, hacq⟩ :=
    h4 ⟨"r", "t1", 30⟩ (some (.storeErr "boom")) storeR 0 "t2" 30 rfl
  exact ⟨(h1 ⟨"r", "t1", 30⟩ (some (.storeErr "boom")) storeR 0).1, hdel, hacq⟩

/-- Claim C10 counterexample: the claim says every newTTL strictly less than one
second makes the store receive 0 seconds.  For newTTL = −2 s (a valid
`time.Duration` smaller than one second), `int64(newTTL.Seconds())` is −2,
not 0, and Extend by the owner writes the −2 s expiry into the store. -/
theorem C10_counterexample :
    ((-2000000000 : Int) < 1000000000) ∧
      ttlSeconds (-2000000000) = -2 ∧
      ((DistributedLock.Extend storeR 0 ⟨"r", "t1", 30000000000⟩
          (-2000000000) none).2.2).recs "r" =
        some ("t1", some (-2000000000)) ∧
      ((-2 : Int) ≠ 0) := by
  refine ⟨by decide, by decide, ?_, by decide⟩
  rfl

/-- Claim C10 as amended: Extend passes the store int64(newTTL.Seconds()), the
duration truncated toward zero to whole seconds — so every nonnegative
newTTL strictly under one second sends 0 (negative durations keep their
truncated negative value) — while on success the handle's leaseDuration
is set to the full untruncated newTTL and the store record's expiry is
now + the truncated seconds. -/
theorem C10_extend_truncates_seconds :
    (∀ d : Int, 0 ≤ d → d < 1000000000 → ttlSeconds d = 0) ∧
      (∀ (s : RedisState) (now : Int) (lock : DistributedLock) (d : Int),
        s.getLive now lock.key = some lock.value →
        (DistributedLock.Extend s now lock d none).1 = .ok () ∧
        (DistributedLock.Extend s now lock d none).2.1 = { lock with ttl := d } ∧
        ((DistributedLock.Extend s now lock d none).2.2).recs lock.key =
          some (lock.value, some (now + ttlSeconds d * 1000000000))) := by
  constructor
  · intro d h0 h1
    show Int.tdiv d 1000000000 = 0
    rw [Int.tdiv_eq_ediv h0 (by omega)]
    exact Int.ediv_eq_zero_of_lt h0 h1
  · exact fun s now lock d h => Extend_owned d h

/-- Witness for C10 (amended) at concrete inputs: 999999999 ns (just under
one second) is sent as 0 seconds while the handle keeps the full
duration. -/
theorem C10_extend_truncates_seconds_witness :
    ttlSeconds 999999999 = 0 ∧
      ((DistributedLock.Extend storeR 0 ⟨"r", "t1", 30000000000⟩ 999999999
          none).1 = .ok () ∧
        (DistributedLock.Extend storeR 0 ⟨"r", "t1", 30000000000⟩ 999999999
          none).2.1 = ⟨"r", "t1", 999999999⟩ ∧
        ((DistributedLock.Extend storeR 0 ⟨"r", "t1", 30000000000⟩ 999999999
          none).2.2).recs "r" = some ("t1", some (0 + ttlSeconds 999999999 *
            1000000000))) := by
  obtain ⟨h1, h2⟩ := C10_extend_truncates_seconds
  exact ⟨h1 999999999 (by decide) (by decide),
    h2 storeR 0 ⟨"r", "t1", 30000000000⟩ 999999999 rfl⟩

end Mora
